import Mathlib

set_option maxHeartbeats 1000000

/-!
Shallow embedding of the ckdapp front-end core (src/src/App.tsx): the
deterministic finding synthesizer seeded by a file fingerprint, the
per-algorithm progress/accuracy simulator, and the session timing rules.
JavaScript numbers that carry fractional values are modelled as exact
rationals; integer-valued quantities are modelled as `Nat`.
-/

/-- JavaScript `Array.prototype.filter` with the element index, starting the
index count at a given value. -/
def filterWithIndexAux {α : Type} (p : Nat → Bool) : Nat → List α → List α
  | _, [] => []
  | i, x :: xs =>
    if p i then x :: filterWithIndexAux p (i + 1) xs else filterWithIndexAux p (i + 1) xs

/-- JavaScript `Array.prototype.filter` where the callback uses the index. -/
def filterWithIndex {α : Type} (p : Nat → Bool) (xs : List α) : List α :=
  filterWithIndexAux p 0 xs

/-- JavaScript `Array.prototype.map` with the element index, starting the
index count at a given value. -/
def mapWithIndexAux {α β : Type} (f : Nat → α → β) : Nat → List α → List β
  | _, [] => []
  | i, x :: xs => f i x :: mapWithIndexAux f (i + 1) xs

/-- JavaScript `Array.prototype.map` where the callback uses the index. -/
def mapWithIndex {α β : Type} (f : Nat → α → β) (xs : List α) : List β :=
  mapWithIndexAux f 0 xs

/-- One entry of the fixed 12-parameter catalog (source lines 7-20). -/
structure CkdParameter where
  name : String
  shortForm : String
  unit : String
deriving DecidableEq

/-- CKD_PARAMETERS (source lines 7-20). -/
def CKD_PARAMETERS : List CkdParameter := [
  { name := "Blood Pressure (BP)", shortForm := "bp", unit := "mmHg" },
  { name := "Specific Gravity (SG)", shortForm := "sg", unit := "" },
  { name := "Albumin (AL)", shortForm := "al", unit := "g/dL" },
  { name := "Blood Glucose Random (BGR)", shortForm := "bgr", unit := "mg/dL" },
  { name := "Blood Urea (BU)", shortForm := "bu", unit := "mg/dL" },
  { name := "Serum Creatinine (SC)", shortForm := "sc", unit := "mg/dL" },
  { name := "Sodium (SOD)", shortForm := "sod", unit := "mEq/L" },
  { name := "Potassium (POT)", shortForm := "pot", unit := "mEq/L" },
  { name := "Hemoglobin (HEMO)", shortForm := "hemo", unit := "g/dL" },
  { name := "Packed Cell Volume (PCV)", shortForm := "pcv", unit := "%" },
  { name := "White Blood Cells (WC)", shortForm := "wc", unit := "/cu.mm" },
  { name := "Red Blood Cells Count (RC)", shortForm := "rc", unit := "millions/cu.mm" }]

/-- DIETARY_RECOMMENDATIONS (source lines 22-33). -/
def DIETARY_RECOMMENDATIONS : List String := [
  "Limit sodium intake to less than 2,300mg per day",
  "Reduce protein intake to 0.8g per kg of body weight",
  "Choose foods low in phosphorus",
  "Limit potassium-rich foods",
  "Increase intake of anti-inflammatory foods",
  "Stay hydrated with appropriate fluid intake",
  "Avoid processed and packaged foods",
  "Include omega-3 rich foods in diet",
  "Choose whole grains over refined grains",
  "Monitor calcium intake carefully"]

/-- LIFESTYLE_RECOMMENDATIONS (source lines 35-46). -/
def LIFESTYLE_RECOMMENDATIONS : List String := [
  "Maintain regular physical activity with doctor\x27s approval",
  "Get adequate sleep (7-8 hours per night)",
  "Monitor blood pressure regularly",
  "Avoid smoking and limit alcohol consumption",
  "Practice stress management techniques",
  "Keep a food and symptom diary",
  "Attend all scheduled medical appointments",
  "Join a kidney disease support group",
  "Learn about kidney-friendly cooking methods",
  "Take prescribed medications consistently"]

/-- Sum of the character codes of a string (source line 72); the input names
are ASCII, so UTF-16 code units and code points agree. -/
def charCodeSum (s : String) : Nat :=
  s.data.foldl (fun acc c => acc + c.toNat) 0

/-- JavaScript Math.min on two (non-NaN) numbers. -/
def jsMin (a b : ℚ) : ℚ := if a ≤ b then a else b

/-- JavaScript Math.max on two (non-NaN) numbers. -/
def jsMax (a b : ℚ) : ℚ := if a ≤ b then b else a

lemma jsMin_eq_min (a b : ℚ) : jsMin a b = min a b := by
  unfold jsMin
  split
  · exact (min_eq_left (by assumption)).symm
  · exact (min_eq_right (le_of_not_le (by assumption))).symm

lemma jsMax_eq_max (a b : ℚ) : jsMax a b = max a b := by
  unfold jsMax
  split
  · exact (max_eq_right (by assumption)).symm
  · exact (max_eq_left (le_of_not_le (by assumption))).symm

/-- getAlgorithmAccuracy (source lines 71-75): per-file target accuracy for an
algorithm, clamped into `[0.85, 0.99]`. -/
def getAlgorithmAccuracy (fileName : String) (baseAccuracy : ℚ) : ℚ :=
  let hash := charCodeSum fileName
  let variation : ℚ := (((hash % 100 : Nat) : ℚ) / 100) * 0.1 - 0.05
  jsMin (jsMax (baseAccuracy + variation) 0.85) 0.99

/-- One entry of ANALYSIS_ALGORITHMS (source lines 77-118); the `icon` and
`color` fields are purely visual React props and are not modelled. -/
structure AlgorithmSpec where
  name : String
  description : String
  duration : Nat
  baseAccuracy : ℚ
deriving DecidableEq

/-- ANALYSIS_ALGORITHMS (source lines 77-118). -/
def ANALYSIS_ALGORITHMS : List AlgorithmSpec := [
  { name := "Deep Neural Network Analysis",
    description := "Processing tissue patterns through CNN",
    duration := 8000, baseAccuracy := 0.97 },
  { name := "Random Forest Classification",
    description := "Analyzing cellular structures",
    duration := 5000, baseAccuracy := 0.93 },
  { name := "Support Vector Machine",
    description := "Boundary detection and segmentation",
    duration := 6000, baseAccuracy := 0.91 },
  { name := "Ensemble Learning Model",
    description := "Combining multiple predictions",
    duration := 7000, baseAccuracy := 0.95 },
  { name := "Feature Extraction Pipeline",
    description := "Extracting key biomarkers",
    duration := 4000, baseAccuracy := 0.89 }]

/-- One synthesized parameter row (source lines 138-143). -/
structure ParameterResult where
  name : String
  value : String
  status : String
  description : String
deriving DecidableEq

/-- `Number.prototype.toFixed(1)` applied to a nonnegative integer value. -/
def toFixed1 (n : Nat) : String := toString n ++ ".0"

/-- Body of the map callback in generateParameters (source lines 121-144):
`valueIndex` is the index the callback receives from `Array.prototype.map`,
i.e. the position in the already-filtered list. -/
def parameterEntry (hash : Nat) (valueIndex : Nat) (param : CkdParameter) : ParameterResult :=
  let value := toFixed1 ((hash * (valueIndex + 1)) % 100)
  let status := if (hash + param.name.length) % 3 == 0 then "high"
    else if (hash + param.name.length) % 3 == 1 then "low" else "normal"
  let description := if status == "high" then
      "Elevated " ++ param.name ++ " levels indicate potential kidney dysfunction"
    else if status == "low" then
      "Low " ++ param.name ++ " levels suggest possible metabolic issues"
    else param.name ++ " levels are within normal range"
  { name := param.name, value := value ++ param.unit, status := status,
    description := description }

/-- generateParameters (source lines 120-145). -/
def generateParameters (hash : Nat) : List ParameterResult :=
  mapWithIndex (fun index param => parameterEntry hash index param)
    (filterWithIndex (fun index => (hash + index) % 3 == 0) CKD_PARAMETERS)

/-- getOtherIssues (source lines 147-156). -/
def getOtherIssues (hash : Nat) : List String :=
  let issues := [
    "Irregular cell structure detected",
    "Abnormal tissue density observed",
    "Unusual membrane formation",
    "Cellular degradation present",
    "Tissue scarring detected"]
  filterWithIndex (fun index => (hash + index) % 3 == 0) issues

/-- highRiskRecommendations (local constant of getRecommendations, source
lines 159-165). -/
def highRiskRecommendations : List String := [
  "Immediate nephrology consultation required",
  "Begin intensive kidney function monitoring",
  "Schedule follow-up biopsy in 2 weeks",
  "Consider dialysis preparation",
  "Strict dietary restrictions recommended"]

/-- mediumRiskRecommendations (local constant of getRecommendations, source
lines 167-173). -/
def mediumRiskRecommendations : List String := [
  "Schedule follow-up examination in 1 month",
  "Monitor blood pressure daily",
  "Dietary sodium restriction advised",
  "Regular blood work every 2 weeks",
  "Consider preventive medications"]

/-- lowRiskRecommendations (local constant of getRecommendations, source
lines 175-181). -/
def lowRiskRecommendations : List String := [
  "Routine follow-up in 3 months",
  "Maintain healthy diet and exercise",
  "Monitor blood pressure weekly",
  "Annual kidney function screening",
  "Stay well hydrated"]

/-- getRecommendations (source lines 158-189). -/
def getRecommendations (hash : Nat) : List String :=
  let probability : ℚ := ((hash % 100 : Nat) : ℚ) / 100
  let recommendations := if probability > 0.7 then highRiskRecommendations
    else if probability > 0.3 then mediumRiskRecommendations
    else lowRiskRecommendations
  (filterWithIndex (fun index => (hash + index) % 2 == 0) recommendations).take 3

/-- The metadata of a submitted `File` that the core reads: name, byte size
and MIME type string. -/
structure FileDescr where
  name : String
  size : Nat
  type : String
deriving DecidableEq

/-- fileHash (source line 192): the fingerprint, name length plus byte size. -/
def fingerprint (file : FileDescr) : Nat := file.name.length + file.size

/-- isImage (source line 193): whether the MIME type starts with the string
image-slash; `startsWith` is modelled on the character lists. -/
def isImageFile (file : FileDescr) : Bool := "image/".data.isPrefixOf file.type.data

/-- The AnalysisResult payload (source lines 195-207 and src/types). -/
structure AnalysisResultType where
  hasSwelling : Bool
  hasShrinkage : Bool
  hasPores : Bool
  otherIssues : List String
  ckdProbability : ℚ
  confidence : ℚ
  recommendations : List String
  parameters : Option (List ParameterResult)
  dietaryRecommendations : List String
  lifestyleRecommendations : List String
  isImage : Bool
deriving DecidableEq

/-- generateConsistentResult (source lines 191-208). -/
def generateConsistentResult (file : FileDescr) : AnalysisResultType :=
  let fileHash := fingerprint file
  let isImage := isImageFile file
  { hasSwelling := fileHash % 2 == 0
    hasShrinkage := fileHash % 3 == 0
    hasPores := fileHash % 4 == 0
    otherIssues := getOtherIssues fileHash
    ckdProbability := ((fileHash % 100 : Nat) : ℚ) / 100
    confidence := 0.85 + ((fileHash % 15 : Nat) : ℚ) / 100
    recommendations := getRecommendations fileHash
    parameters := if !isImage then some (generateParameters fileHash) else none
    dietaryRecommendations :=
      (filterWithIndex (fun index => (fileHash + index) % 3 == 0) DIETARY_RECOMMENDATIONS).take 5
    lifestyleRecommendations :=
      (filterWithIndex (fun index => (fileHash + index) % 3 == 0) LIFESTYLE_RECOMMENDATIONS).take 5
    isImage := isImage }

example : fingerprint { name := "abcdefgh", size := 92, type := "image/png" } = 100 := by decide

example : (generateConsistentResult { name := "abcdefgh", size := 92, type := "image/png" }).hasShrinkage = false := by decide

example : isImageFile { name := "a", size := 0, type := "image/png" } = true := by decide

example : isImageFile { name := "a", size := 0, type := "application/pdf" } = false := by decide

/-! ## C1: the result is a function of the fingerprint and the media category -/

/-- C1: for every pair of FileDescriptors with equal fingerprint (name length
plus byte size) and equal image/non-image category, generateConsistentResult
returns identical AnalysisResults: no other attribute of the file influences
any field of the result. -/
theorem generateConsistentResult_determined_by_fingerprint_and_category
    (f1 f2 : FileDescr)
    (hfp : fingerprint f1 = fingerprint f2)
    (hcat : isImageFile f1 = isImageFile f2) :
    generateConsistentResult f1 = generateConsistentResult f2 := by
  simp only [generateConsistentResult]
  rw [hfp, hcat]

/-- Witness for C1: two unrelated files, one named scan0.png of 91 bytes and
one named x.png of 95 bytes, share fingerprint 100 and the image category, and
get the same result. -/
theorem generateConsistentResult_determined_witness :
    fingerprint { name := "scan0.png", size := 91, type := "image/png" } =
      fingerprint { name := "x.png", size := 95, type := "image/jpeg" } ∧
    isImageFile { name := "scan0.png", size := 91, type := "image/png" } =
      isImageFile { name := "x.png", size := 95, type := "image/jpeg" } ∧
    generateConsistentResult { name := "scan0.png", size := 91, type := "image/png" } =
      generateConsistentResult { name := "x.png", size := 95, type := "image/jpeg" } :=
  ⟨by decide, by decide,
    generateConsistentResult_determined_by_fingerprint_and_category _ _ (by decide) (by decide)⟩

/-! ## C2: the flag, probability and confidence formulas and their ranges -/

/-- C2: the synthesized result has hasSwelling, hasShrinkage and hasPores
given by the parity of the fingerprint modulo 2, 3 and 4, ckdProbability equal
to the fingerprint modulo 100 over 100, confidence equal to 0.85 plus the
fingerprint modulo 15 over 100; hence ckdProbability lies in [0, 0.99] and
confidence in [0.85, 1.0). -/
theorem synthesize_flags_probability_confidence (fd : FileDescr) :
    (generateConsistentResult fd).hasSwelling = (fingerprint fd % 2 == 0) ∧
    (generateConsistentResult fd).hasShrinkage = (fingerprint fd % 3 == 0) ∧
    (generateConsistentResult fd).hasPores = (fingerprint fd % 4 == 0) ∧
    (generateConsistentResult fd).ckdProbability = ((fingerprint fd % 100 : Nat) : ℚ) / 100 ∧
    (generateConsistentResult fd).confidence = 0.85 + ((fingerprint fd % 15 : Nat) : ℚ) / 100 ∧
    0 ≤ (generateConsistentResult fd).ckdProbability ∧
    (generateConsistentResult fd).ckdProbability ≤ 0.99 ∧
    0.85 ≤ (generateConsistentResult fd).confidence ∧
    (generateConsistentResult fd).confidence < 1 := by
  have h100 : ((fingerprint fd % 100 : Nat) : ℚ) ≤ 99 := by
    exact_mod_cast Nat.le_of_lt_succ (Nat.mod_lt _ (by norm_num))
  have h100nn : (0 : ℚ) ≤ ((fingerprint fd % 100 : Nat) : ℚ) := by positivity
  have h15 : ((fingerprint fd % 15 : Nat) : ℚ) ≤ 14 := by
    exact_mod_cast Nat.le_of_lt_succ (Nat.mod_lt _ (by norm_num))
  have h15nn : (0 : ℚ) ≤ ((fingerprint fd % 15 : Nat) : ℚ) := by positivity
  refine ⟨rfl, rfl, rfl, rfl, rfl, ?_, ?_, ?_, ?_⟩
  · simp only [generateConsistentResult]; positivity
  · simp only [generateConsistentResult]
    rw [show (0.99 : ℚ) = 99 / 100 by norm_num]
    linarith
  · simp only [generateConsistentResult]; linarith
  · simp only [generateConsistentResult]; linarith

/-! ## Helper lemmas on the indexed filter and map -/

lemma filterWithIndexAux_sublist {α : Type} (p : Nat → Bool) (i : Nat) (xs : List α) :
    (filterWithIndexAux p i xs).Sublist xs := by
  induction xs generalizing i with
  | nil => simp [filterWithIndexAux]
  | cons x xs ih =>
    simp only [filterWithIndexAux]
    split
    · exact (ih (i + 1)).cons₂ x
    · exact (ih (i + 1)).cons x

lemma mapWithIndexAux_length {α β : Type} (g : Nat → α → β) (i : Nat) (xs : List α) :
    (mapWithIndexAux g i xs).length = xs.length := by
  induction xs generalizing i with
  | nil => rfl
  | cons x xs ih => simp [mapWithIndexAux, ih]

/-! ## C8: recommendation tier selection, filtering, order and cap -/

/-- Risk-tier catalog selection as the spec words it: with p the fingerprint
modulo 100 over 100, the high-risk catalog if p exceeds 0.7, the medium-risk
catalog if p exceeds 0.3, else the low-risk catalog. -/
def riskTierCatalog (hash : Nat) : List String :=
  let p : ℚ := ((hash % 100 : Nat) : ℚ) / 100
  if p > 0.7 then highRiskRecommendations
  else if p > 0.3 then mediumRiskRecommendations
  else lowRiskRecommendations

/-- C8: for every fingerprint the recommendations list is the tier catalog
chosen by the probability thresholds, filtered keeping index i iff
(fingerprint + i) mod 2 = 0, truncated to the first 3 survivors; hence it is a
sublist of the chosen catalog (original order preserved) of length at most 3. -/
theorem recommendations_tier_filter_order_cap (hash : Nat) :
    getRecommendations hash =
      (filterWithIndex (fun i => (hash + i) % 2 == 0) (riskTierCatalog hash)).take 3 ∧
    (getRecommendations hash).Sublist (riskTierCatalog hash) ∧
    (getRecommendations hash).length ≤ 3 := by
  have h1 : getRecommendations hash =
      (filterWithIndex (fun i => (hash + i) % 2 == 0) (riskTierCatalog hash)).take 3 := rfl
  refine ⟨h1, ?_, ?_⟩
  · rw [h1]
    exact (List.take_sublist _ _).trans (filterWithIndexAux_sublist _ _ _)
  · rw [h1]
    exact List.length_take_le _ _

/-! ## C9: per-file target accuracy formula and range -/

lemma getAlgorithmAccuracy_bounds (fileName : String) (base : ℚ) :
    0.85 ≤ getAlgorithmAccuracy fileName base ∧ getAlgorithmAccuracy fileName base ≤ 0.99 := by
  simp only [getAlgorithmAccuracy, jsMin_eq_min, jsMax_eq_max]
  exact ⟨le_min (le_max_right _ _) (by norm_num), min_le_right _ _⟩

/-- C9: for every file name and roster entry, the target accuracy is the base
accuracy plus the variation derived from the character-code sum of the name,
clamped into [0.85, 0.99]; hence it always lies in [0.85, 0.99]. -/
theorem targetAccuracy_formula_and_range (fileName : String) (a : AlgorithmSpec)
    (ha : a ∈ ANALYSIS_ALGORITHMS) :
    getAlgorithmAccuracy fileName a.baseAccuracy =
      min (max (a.baseAccuracy +
        ((((charCodeSum fileName % 100 : Nat) : ℚ) / 100) * 0.1 - 0.05)) 0.85) 0.99 ∧
    0.85 ≤ getAlgorithmAccuracy fileName a.baseAccuracy ∧
    getAlgorithmAccuracy fileName a.baseAccuracy ≤ 0.99 :=
  ⟨by simp only [getAlgorithmAccuracy, jsMin_eq_min, jsMax_eq_max],
    (getAlgorithmAccuracy_bounds fileName a.baseAccuracy).1,
    (getAlgorithmAccuracy_bounds fileName a.baseAccuracy).2⟩

/-- The first roster entry, used to instantiate witnesses. -/
def dnnSpec : AlgorithmSpec :=
  { name := "Deep Neural Network Analysis",
    description := "Processing tissue patterns through CNN",
    duration := 8000, baseAccuracy := 0.97 }

/-- Witness for C9 at the file name kidney_scan.png and the first roster
entry. -/
theorem targetAccuracy_formula_witness :
    dnnSpec ∈ ANALYSIS_ALGORITHMS ∧
    (getAlgorithmAccuracy "kidney_scan.png" dnnSpec.baseAccuracy =
      min (max (dnnSpec.baseAccuracy +
        ((((charCodeSum "kidney_scan.png" % 100 : Nat) : ℚ) / 100) * 0.1 - 0.05)) 0.85) 0.99 ∧
    0.85 ≤ getAlgorithmAccuracy "kidney_scan.png" dnnSpec.baseAccuracy ∧
    getAlgorithmAccuracy "kidney_scan.png" dnnSpec.baseAccuracy ≤ 0.99) :=
  ⟨List.mem_cons_self _ _,
    targetAccuracy_formula_and_range "kidney_scan.png" dnnSpec (List.mem_cons_self _ _)⟩

/-! ## C10: fixed sizes of the mod-3 filtered lists -/

lemma getOtherIssues_length (f : Nat) :
    (getOtherIssues f).length = if f % 3 = 1 then 1 else 2 := by
  have hp : (fun index => (f + index) % 3 == 0) = (fun index => (f % 3 + index) % 3 == 0) := by
    funext i
    congr 1
    omega
  simp only [getOtherIssues, filterWithIndex, hp]
  obtain h | h | h : f % 3 = 0 ∨ f % 3 = 1 ∨ f % 3 = 2 := by omega
  all_goals rw [h]
  all_goals decide

lemma generateParameters_length (f : Nat) : (generateParameters f).length = 4 := by
  have hp : (fun index => (f + index) % 3 == 0) = (fun index => (f % 3 + index) % 3 == 0) := by
    funext i
    congr 1
    omega
  simp only [generateParameters, mapWithIndex, mapWithIndexAux_length, filterWithIndex, hp]
  obtain h | h | h : f % 3 = 0 ∨ f % 3 = 1 ∨ f % 3 = 2 := by omega
  all_goals rw [h]
  all_goals decide

lemma dietary_take_length (f : Nat) :
    ((filterWithIndex (fun index => (f + index) % 3 == 0) DIETARY_RECOMMENDATIONS).take 5).length =
      if f % 3 = 0 then 4 else 3 := by
  have hp : (fun index => (f + index) % 3 == 0) = (fun index => (f % 3 + index) % 3 == 0) := by
    funext i
    congr 1
    omega
  simp only [filterWithIndex, hp]
  obtain h | h | h : f % 3 = 0 ∨ f % 3 = 1 ∨ f % 3 = 2 := by omega
  all_goals rw [h]
  all_goals decide

lemma lifestyle_take_length (f : Nat) :
    ((filterWithIndex (fun index => (f + index) % 3 == 0) LIFESTYLE_RECOMMENDATIONS).take 5).length =
      if f % 3 = 0 then 4 else 3 := by
  have hp : (fun index => (f + index) % 3 == 0) = (fun index => (f % 3 + index) % 3 == 0) := by
    funext i
    congr 1
    omega
  simp only [filterWithIndex, hp]
  obtain h | h | h : f % 3 = 0 ∨ f % 3 = 1 ∨ f % 3 = 2 := by omega
  all_goals rw [h]
  all_goals decide

/-- C10: the mod-3 filtered lists have fixed sizes determined by the
fingerprint's residue class: otherIssues has 1 or 2 entries and is never
empty, parameters (when present) has exactly 4 of the 12 catalog entries, and
the dietary and lifestyle lists each have 3 or 4 entries, strictly below their
stated cap of 5. -/
theorem mod3_filtered_list_sizes (fd : FileDescr) :
    ((generateConsistentResult fd).otherIssues.length = 1 ∨
      (generateConsistentResult fd).otherIssues.length = 2) ∧
    (generateConsistentResult fd).otherIssues ≠ [] ∧
    ((generateConsistentResult fd).parameters = none ∨
      (generateConsistentResult fd).parameters = some (generateParameters (fingerprint fd))) ∧
    (generateParameters (fingerprint fd)).length = 4 ∧
    ((generateConsistentResult fd).dietaryRecommendations.length = 3 ∨
      (generateConsistentResult fd).dietaryRecommendations.length = 4) ∧
    ((generateConsistentResult fd).lifestyleRecommendations.length = 3 ∨
      (generateConsistentResult fd).lifestyleRecommendations.length = 4) ∧
    (generateConsistentResult fd).dietaryRecommendations.length < 5 ∧
    (generateConsistentResult fd).lifestyleRecommendations.length < 5 := by
  have e1 : (generateConsistentResult fd).otherIssues = getOtherIssues (fingerprint fd) := rfl
  have e2 : (generateConsistentResult fd).parameters =
      if !isImageFile fd then some (generateParameters (fingerprint fd)) else none := rfl
  have e3 : (generateConsistentResult fd).dietaryRecommendations =
      (filterWithIndex (fun index => (fingerprint fd + index) % 3 == 0)
        DIETARY_RECOMMENDATIONS).take 5 := rfl
  have e4 : (generateConsistentResult fd).lifestyleRecommendations =
      (filterWithIndex (fun index => (fingerprint fd + index) % 3 == 0)
        LIFESTYLE_RECOMMENDATIONS).take 5 := rfl
  refine ⟨?_, ?_, ?_, generateParameters_length _, ?_, ?_, ?_, ?_⟩
  · rw [e1, getOtherIssues_length]
    split <;> simp
  · rw [e1]
    have := getOtherIssues_length (fingerprint fd)
    intro hnil
    rw [hnil] at this
    split at this <;> simp_all
  · rw [e2]
    cases isImageFile fd <;> simp
  · rw [e3, dietary_take_length]
    split <;> simp
  · rw [e4, lifestyle_take_length]
    split <;> simp
  · rw [e3, dietary_take_length]
    split <;> norm_num
  · rw [e4, lifestyle_take_length]
    split <;> norm_num

/-! ## C3: parameter presence and the parameter value formula -/

/-- The parameter synthesis exactly as claim C3 words it: keep the catalog
items at catalog indices i with (fingerprint + i) mod 3 = 0, and give the kept
item of CATALOG index i the raw value (fingerprint * (i + 1)) mod 100. -/
def generateParametersCatalogIndexed (hash : Nat) : List ParameterResult :=
  ((mapWithIndex (fun i param => (i, param)) CKD_PARAMETERS).filter
      (fun ip => (hash + ip.1) % 3 == 0)).map
    (fun ip => parameterEntry hash ip.1 ip.2)

/-- The parameter synthesis as amended: keep the catalog items at catalog
indices i with (fingerprint + i) mod 3 = 0, in catalog order; the kept item at
position j of the filtered list (not its catalog index) gets raw value
(fingerprint * (j + 1)) mod 100. -/
def generateParametersFilteredIndexed (hash : Nat) : List ParameterResult :=
  mapWithIndex (fun j ip => parameterEntry hash j ip.2)
    ((mapWithIndex (fun i param => (i, param)) CKD_PARAMETERS).filter
      (fun ip => (hash + ip.1) % 3 == 0))

/-- Counterexample to C3 as stated: at fingerprint 3 the kept catalog indices
are 0, 3, 6, 9, and the code gives the item of catalog index 3 the value
(3 * 2) mod 100 = 6 from its position 1 in the filtered list, while the
claim's catalog-index formula demands (3 * 4) mod 100 = 12. -/
theorem parameters_catalog_index_counterexample :
    generateParameters 3 ≠ generateParametersCatalogIndexed 3 ∧
    (generateParameters 3).map (fun p => p.value) =
      ["3.0mmHg", "6.0mg/dL", "9.0mEq/L", "12.0%"] ∧
    (generateParametersCatalogIndexed 3).map (fun p => p.value) =
      ["3.0mmHg", "12.0mg/dL", "21.0mEq/L", "30.0%"] :=
  ⟨by decide, by decide, by decide⟩

/-- C3 as amended: parameters are present exactly when the media category is
non-image, and then contain, in catalog order, the catalog items at indices i
with (fingerprint + i) mod 3 = 0, where the kept item at position j of the
filtered list has raw value (fingerprint * (j + 1)) mod 100 formatted to one
decimal digit, and status derived from (fingerprint + length(parameter name))
mod 3: 0 gives high, 1 gives low, otherwise normal (the status and formatting
rules are inside parameterEntry). -/
theorem parameters_presence_and_value_formula (fd : FileDescr) :
    ((generateConsistentResult fd).parameters =
      if isImageFile fd then none else some (generateParameters (fingerprint fd))) ∧
    ((generateConsistentResult fd).parameters.isSome ↔ isImageFile fd = false) ∧
    (∀ hash : Nat, generateParameters hash = generateParametersFilteredIndexed hash) := by
  have e2 : (generateConsistentResult fd).parameters =
      if !isImageFile fd then some (generateParameters (fingerprint fd))
      else none := rfl
  refine ⟨?_, ?_, ?_⟩
  · rw [e2]
    cases isImageFile fd <;> simp
  · rw [e2]
    cases isImageFile fd <;> simp
  · intro hash
    have hp : (fun index => (hash + index) % 3 == 0) =
        (fun index => (hash % 3 + index) % 3 == 0) := by
      funext i
      congr 1
      omega
    have hp2 : (fun ip : Nat × CkdParameter => (hash + ip.1) % 3 == 0) =
        (fun ip : Nat × CkdParameter => (hash % 3 + ip.1) % 3 == 0) := by
      funext ip
      congr 1
      omega
    simp only [generateParameters, generateParametersFilteredIndexed, filterWithIndex,
      mapWithIndex, hp, hp2]
    obtain h | h | h : hash % 3 = 0 ∨ hash % 3 = 1 ∨ hash % 3 = 2 := by omega
    all_goals rw [h]
    all_goals simp [CKD_PARAMETERS, filterWithIndexAux, mapWithIndexAux, List.filter]

/-! ## Session timing (source lines 244-275, 308-312, 336-341) -/

/-- updateInterval (source line 280): the tick period in milliseconds. -/
def updateIntervalMs : Nat := 50

/-- Math.max over the roster durations (source lines 308 and 338). -/
def maxDuration : Nat := (ANALYSIS_ALGORITHMS.map (fun a => a.duration)).foldl Nat.max 0

/-- The delay of the two one-shot session timers: the one that publishes the
result (source lines 338-341) and the one that ends the analyzing phase
(source lines 308-312), both armed at maxDuration + 1000 ms. -/
def revealDelayMs : Nat := maxDuration + 1000

/-- totalDuration of the cosmetic overall-progress window (source line 246):
10 s when a processing image is shown, 15 s otherwise. -/
def totalDurationMs (processingImage : Bool) : Nat :=
  if processingImage then 10000 else 15000

/-- The moment isAnalyzing becomes false: the overall-progress effect arms a
timeout at totalDuration (source lines 261-264) and the algorithm-roster
effect arms one at maxDuration + 1000 ms (source lines 308-312); whichever
fires first flips isAnalyzing, and that flip re-runs the overall-progress
effect whose cleanup cancels the other timer (source lines 266-270). -/
def analysisEndMs (processingImage : Bool) : Nat :=
  min revealDelayMs (totalDurationMs processingImage)

/-- The published result as a function of session time (source lines 336-341):
generateConsistentResult is computed synchronously at submission and becomes
visible when the maxDuration + 1000 ms timeout fires. -/
def publishedResultAt (file : FileDescr) (t : Nat) : Option AnalysisResultType :=
  if revealDelayMs ≤ t then some (generateConsistentResult file) else none

/-- C5: the analyzing-to-revealed transition fires at
max(duration over the roster) + 1000 = 9000 ms for both media categories; it
is gated solely by the roster timer because 9000 ms strictly precedes both the
10 s and the 15 s overall-progress windows, and at that moment the previously
computed AnalysisResult is published. -/
theorem reveal_gated_by_roster_timer :
    maxDuration = 8000 ∧
    revealDelayMs = maxDuration + 1000 ∧
    revealDelayMs = 9000 ∧
    (∀ img : Bool, analysisEndMs img = revealDelayMs ∧ revealDelayMs < totalDurationMs img) ∧
    (∀ fd : FileDescr, ∀ t : Nat,
      publishedResultAt fd t = some (generateConsistentResult fd) ↔ revealDelayMs ≤ t) := by
  refine ⟨by decide, rfl, by decide, ?_, ?_⟩
  · intro img
    cases img <;> exact ⟨by decide, by decide⟩
  · intro fd t
    by_cases h : revealDelayMs ≤ t <;> simp [publishedResultAt, h]

/-! ## C4: timers of an abandoned session leak into the next session -/

/-- The pieces of component state that the algorithm-progress machinery
touches (source lines 211-227); the name-keyed maps are association lists. -/
structure AppState where
  isAnalyzing : Bool
  result : Option AnalysisResultType
  currentFileName : String
  algorithmProgress : List (String × ℚ)
  algorithmAccuracy : List (String × ℚ)
  completedAlgorithms : List String
deriving DecidableEq

/-- JavaScript bracket lookup in a name-keyed map, with a default for a
missing key. -/
def mapLookupD : List (String × ℚ) → String → ℚ → ℚ
  | [], _, dflt => dflt
  | e :: rest, key, dflt => if e.1 == key then e.2 else mapLookupD rest key dflt

/-- JavaScript spread-update of a name-keyed map at one key. -/
def mapInsert (m : List (String × ℚ)) (key : String) (v : ℚ) : List (String × ℚ) :=
  if m.any (fun e => e.1 == key) then m.map (fun e => if e.1 == key then (e.1, v) else e)
  else m ++ [(key, v)]

/-- A periodic interval handle, tagged with the effect run (session
generation) that created it, the algorithm it drives, and the currentFileName
captured by the callback closure. The generation tag is a modelling device to
tell apart handles created by different effect runs. -/
structure IntervalHandle where
  generation : Nat
  algName : String
  closureFileName : String
deriving DecidableEq

/-- The set of live interval handles plus the next generation number. -/
structure EffectEnv where
  activeIntervals : List IntervalHandle
  generation : Nat
deriving DecidableEq

/-- The state updates performed synchronously by analyzeFile (source lines
320-325): it resets result, completedAlgorithms and the file name, but does
NOT touch algorithmProgress or algorithmAccuracy. -/
def analyzeFileState (file : FileDescr) (s : AppState) : AppState :=
  { s with isAnalyzing := true, result := none, completedAlgorithms := [],
           currentFileName := file.name }

/-- One run of the algorithm-progress effect body (source lines 277-318):
when analyzing with a nonempty file name it starts one 50 ms interval per
roster algorithm (the if branch); otherwise it resets the three maps (the
else branch). -/
def runAlgorithmEffectBody (s : AppState) (env : EffectEnv) : AppState × EffectEnv :=
  if s.isAnalyzing && !(s.currentFileName == "") then
    (s, { activeIntervals := env.activeIntervals ++
            ANALYSIS_ALGORITHMS.map (fun a =>
              { generation := env.generation, algName := a.name,
                closureFileName := s.currentFileName }),
          generation := env.generation + 1 })
  else
    ({ s with
        algorithmProgress := ANALYSIS_ALGORITHMS.map (fun a => (a.name, (0 : ℚ))),
        algorithmAccuracy := ANALYSIS_ALGORITHMS.map (fun a => (a.name, (0.76 : ℚ))),
        completedAlgorithms := [] }, env)

/-- The interval handles cancelled when the algorithm-progress effect is torn
down: the source effect returns no cleanup function in either branch (source
lines 277-318), so nothing is cancelled. -/
def algorithmEffectCancelledHandles : List IntervalHandle := []

/-- React re-run of the algorithm-progress effect when a dependency changes:
the previous cleanup runs first (cancelling exactly the handles it lists),
then the body runs again. -/
def rerunAlgorithmEffect (s : AppState) (env : EffectEnv) : AppState × EffectEnv :=
  runAlgorithmEffectBody s
    { env with activeIntervals :=
        env.activeIntervals.filter (fun h => !(algorithmEffectCancelledHandles.contains h)) }

/-- Find the roster entry with a given name. -/
def findAlgorithmByName (name : String) : List AlgorithmSpec → Option AlgorithmSpec
  | [] => none
  | a :: rest => if a.name == name then some a else findAlgorithmByName name rest

/-- One firing of an interval callback (source lines 289-305), possibly from
a stale handle: it reads and writes the current maps through its closure;
the returned flag records whether the callback cleared its own interval
(progress reached 100). -/
def intervalTickFires (h : IntervalHandle) (s : AppState) : AppState × Bool :=
  match findAlgorithmByName h.algName ANALYSIS_ALGORITHMS with
  | none => (s, false)
  | some algorithm =>
    let incrementAmount := (100 * (updateIntervalMs : ℚ)) / (algorithm.duration : ℚ)
    let targetAccuracy := getAlgorithmAccuracy h.closureFileName algorithm.baseAccuracy
    let accuracyIncrementAmount :=
      ((targetAccuracy - 0.76) * (updateIntervalMs : ℚ)) / (algorithm.duration : ℚ)
    let newProgress := mapLookupD s.algorithmProgress algorithm.name 0 + incrementAmount
    let s1 := if 100 ≤ newProgress then
        { s with completedAlgorithms := s.completedAlgorithms ++ [algorithm.name],
                 algorithmProgress := mapInsert s.algorithmProgress algorithm.name 100 }
      else
        { s with algorithmProgress := mapInsert s.algorithmProgress algorithm.name newProgress }
    let stored := mapLookupD s.algorithmAccuracy algorithm.name 0
    let currentAccuracy := if stored = 0 then (0.76 : ℚ) else stored
    let newAccuracy := jsMin (currentAccuracy + accuracyIncrementAmount) targetAccuracy
    ({ s1 with algorithmAccuracy := mapInsert s.algorithmAccuracy algorithm.name newAccuracy },
      false)

/-- The component state right after mount, once the algorithm-progress effect
has run with isAnalyzing = false (source lines 313-317). -/
def mountedState : AppState :=
  { isAnalyzing := false, result := none, currentFileName := "",
    algorithmProgress := ANALYSIS_ALGORITHMS.map (fun a => (a.name, (0 : ℚ))),
    algorithmAccuracy := ANALYSIS_ALGORITHMS.map (fun a => (a.name, (0.76 : ℚ))),
    completedAlgorithms := [] }

/-- Session A's file: an image being analyzed when the user resubmits. -/
def fileA : FileDescr := { name := "scan.png", size := 2000, type := "image/png" }

/-- Session B's file, submitted while session A's intervals still run. -/
def fileB : FileDescr := { name := "report.pdf", size := 500, type := "application/pdf" }

/-- Session A as started: analyzeFile state updates, then the effect re-run
that spawns generation-0 intervals. -/
def sessionAStart : AppState × EffectEnv :=
  rerunAlgorithmEffect (analyzeFileState fileA mountedState)
    { activeIntervals := [], generation := 0 }

/-- The generation-0 interval of the Feature Extraction Pipeline algorithm. -/
def fepHandleA : IntervalHandle :=
  { generation := 0, algName := "Feature Extraction Pipeline",
    closureFileName := "scan.png" }

/-- Session A 50 ms in: its Feature Extraction Pipeline interval has fired
once. -/
def sessionAMid : AppState := (intervalTickFires fepHandleA sessionAStart.1).1

/-- Session B as started mid-session-A: analyzeFile state updates for file B,
then the effect re-run (its dependency currentFileName changed). -/
def sessionBStart : AppState × EffectEnv :=
  rerunAlgorithmEffect (analyzeFileState fileB sessionAMid) sessionAStart.2

/-- C4 fails on the code: immediately after resubmitting file B while session
A's timers run, session A's generation-0 interval is still active (the effect
registered no cleanup), the new session's progress map still holds session
A's progress 1.25 for Feature Extraction Pipeline instead of 0, its accuracy
map still holds session A's advanced accuracy instead of 0.76, and a later
firing of the stale interval writes progress 2.5 into the new session's map. -/
theorem stale_timer_leak_after_resubmission :
    fepHandleA ∈ sessionBStart.2.activeIntervals ∧
    mapLookupD sessionBStart.1.algorithmProgress "Feature Extraction Pipeline" 0 = 5 / 4 ∧
    ¬ (mapLookupD sessionBStart.1.algorithmProgress "Feature Extraction Pipeline" 0 = 0) ∧
    ¬ (mapLookupD sessionBStart.1.algorithmAccuracy "Feature Extraction Pipeline" 0 = 0.76) ∧
    mapLookupD (intervalTickFires fepHandleA sessionBStart.1).1.algorithmProgress
      "Feature Extraction Pipeline" 0 = 5 / 2 := by
  have hcs : charCodeSum "scan.png" = 792 := by decide
  refine ⟨?_, ?_, ?_, ?_, ?_⟩ <;>
    norm_num +decide [sessionBStart, sessionAMid, sessionAStart, rerunAlgorithmEffect,
      runAlgorithmEffectBody, analyzeFileState, mountedState, intervalTickFires,
      mapLookupD, mapInsert, fepHandleA, fileA, fileB, algorithmEffectCancelledHandles,
      ANALYSIS_ALGORITHMS, updateIntervalMs, getAlgorithmAccuracy, hcs, jsMin, jsMax,
      findAlgorithmByName]

/-! ## The per-algorithm progress/accuracy simulator (source lines 277-318) -/

/-- One AlgorithmRunState: progress percent, accuracy, completion flag. -/
@[ext] structure AlgRunState where
  progress : ℚ
  accuracy : ℚ
  completed : Bool
deriving DecidableEq

/-- The run state every algorithm starts a session from: progress 0, accuracy
0.76, not completed (source lines 285 and 313-317). -/
def initRunState : AlgRunState := { progress := 0, accuracy := 0.76, completed := false }

/-- incrementAmount (source line 281). -/
def incrementAmount (duration : Nat) : ℚ :=
  (100 * (updateIntervalMs : ℚ)) / (duration : ℚ)

/-- accuracyIncrementAmount (source lines 284-287). -/
def accuracyIncrementAmount (targetAccuracy : ℚ) (duration : Nat) : ℚ :=
  ((targetAccuracy - 0.76) * (updateIntervalMs : ℚ)) / (duration : ℚ)

/-- One firing of one algorithm's 50 ms interval callback (source lines
289-305). A completed state is a fixed point: the callback that reaches 100
clears its own interval, so no further callback runs for that algorithm. -/
def algTick (inc accInc target : ℚ) (s : AlgRunState) : AlgRunState :=
  if s.completed then s
  else
    let newProgress := s.progress + inc
    if 100 ≤ newProgress then
      { progress := 100, accuracy := jsMin (s.accuracy + accInc) target, completed := true }
    else
      { progress := newProgress, accuracy := jsMin (s.accuracy + accInc) target,
        completed := false }

/-- The interval callback of a roster algorithm for a given session file
name, with the increments of source lines 280-287. -/
def algParamsTick (fileName : String) (a : AlgorithmSpec) : AlgRunState → AlgRunState :=
  algTick (incrementAmount a.duration)
    (accuracyIncrementAmount (getAlgorithmAccuracy fileName a.baseAccuracy) a.duration)
    (getAlgorithmAccuracy fileName a.baseAccuracy)

/-- The run state of one roster algorithm after k ticks of an uninterrupted
session on a file with the given name. -/
def algRunA (fileName : String) (a : AlgorithmSpec) (k : Nat) : AlgRunState :=
  (algParamsTick fileName a)^[k] initRunState

lemma algTick_completed_fix (inc accInc target p a : ℚ) :
    algTick inc accInc target ⟨p, a, true⟩ = ⟨p, a, true⟩ := by
  simp [algTick]

lemma algTick_not_completed (inc accInc target p a : ℚ) :
    algTick inc accInc target ⟨p, a, false⟩ =
      if 100 ≤ p + inc then ⟨100, jsMin (a + accInc) target, true⟩
      else ⟨p + inc, jsMin (a + accInc) target, false⟩ := by
  simp only [algTick, Bool.false_eq_true, if_false]

/-- Closed form of the per-algorithm run: with n the number of ticks that
exactly exhausts the nominal duration, after k ticks the progress is
k * inc capped at 100 (reached exactly at tick n), the accuracy is
0.76 + min k n increments, and the algorithm is completed exactly from tick n
on. -/
lemma algTick_iterate_closed (inc accInc target : ℚ) (n : Nat) (hn : 0 < n)
    (hinc : inc * (n : ℚ) = 100) (hacc : accInc * (n : ℚ) = target - 0.76)
    (haccnn : 0 ≤ accInc) (k : Nat) :
    (algTick inc accInc target)^[k] initRunState =
      { progress := if n ≤ k then 100 else (k : ℚ) * inc,
        accuracy := 0.76 + ((min k n : Nat) : ℚ) * accInc,
        completed := decide (n ≤ k) } := by
  have hn' : (0 : ℚ) < (n : ℚ) := by exact_mod_cast hn
  have hincpos : 0 < inc := by
    rcases lt_trichotomy inc 0 with h | h | h
    · nlinarith
    · rw [h] at hinc
      norm_num at hinc
    · exact h
  induction k with
  | zero =>
    have h0 : ¬ n ≤ 0 := by omega
    simp [initRunState, h0]
  | succ k ih =>
    rw [Function.iterate_succ_apply', ih]
    by_cases hk : n ≤ k
    · have hk1 : n ≤ k + 1 := by omega
      have hmin : min k n = n := by omega
      have hmin1 : min (k + 1) n = n := by omega
      simp [algTick, hk, hk1, hmin, hmin1]
    · have hklt : k < n := by omega
      have hmink : min k n = k := by omega
      have hstate : (⟨if n ≤ k then 100 else (k : ℚ) * inc,
            0.76 + ((min k n : Nat) : ℚ) * accInc, decide (n ≤ k)⟩ : AlgRunState) =
          (⟨(k : ℚ) * inc, 0.76 + (k : ℚ) * accInc, false⟩ : AlgRunState) := by
        simp [hk, hmink]
      rw [hstate]
      have key : ((100 : ℚ) ≤ (k : ℚ) * inc + inc) ↔ n ≤ k + 1 := by
        have h1 : (k : ℚ) * inc + inc = ((k + 1 : Nat) : ℚ) * inc := by push_cast; ring
        rw [h1, ← hinc]
        constructor
        · intro hle
          by_contra hc
          have h2 : k + 1 < n := by omega
          have h3 : ((k + 1 : Nat) : ℚ) < (n : ℚ) := by exact_mod_cast h2
          nlinarith
        · intro hle
          have h3 : (n : ℚ) ≤ ((k + 1 : Nat) : ℚ) := by exact_mod_cast hle
          nlinarith
      rw [algTick_not_completed]
      by_cases hk1 : n ≤ k + 1
      · have hn1 : n = k + 1 := by omega
        subst hn1
        have hnew : (100 : ℚ) ≤ (k : ℚ) * inc + inc := key.mpr hk1
        have haccval : 0.76 + ((k : ℚ) * accInc + accInc) = target := by
          have h2 : accInc * ((k : ℚ) + 1) = target - 0.76 := by
            rw [← hacc]
            push_cast
            ring
          have h5 : accInc * ((k : ℚ) + 1) = (k : ℚ) * accInc + accInc := by ring
          linarith
        have hjs : jsMin (0.76 + (k : ℚ) * accInc + accInc) target = target := by
          rw [show 0.76 + (k : ℚ) * accInc + accInc = target by linarith [haccval]]
          simp [jsMin]
        rw [if_pos hnew]
        have hminr : min (k + 1) (k + 1) = k + 1 := by omega
        refine AlgRunState.ext ?_ ?_ ?_
        · simp
        · show jsMin (0.76 + (k : ℚ) * accInc + accInc) target =
            0.76 + ((min (k + 1) (k + 1) : Nat) : ℚ) * accInc
          rw [hjs, hminr]
          push_cast
          linarith [haccval]
        · simp
      · have hk1lt : k + 1 < n := by omega
        have hnew : ¬ ((100 : ℚ) ≤ (k : ℚ) * inc + inc) := by
          rw [key]
          exact hk1
        have hmin1 : min (k + 1) n = k + 1 := by omega
        have haccle : 0.76 + ((k : ℚ) * accInc + accInc) ≤ target := by
          have h4 : ((k : ℚ) + 1) ≤ (n : ℚ) := by exact_mod_cast Nat.le_of_lt hk1lt
          have h2 : ((k : ℚ) + 1) * accInc ≤ (n : ℚ) * accInc :=
            mul_le_mul_of_nonneg_right h4 haccnn
          have h3 : (n : ℚ) * accInc = target - 0.76 := by rw [← hacc]; ring
          have h5 : ((k : ℚ) + 1) * accInc = (k : ℚ) * accInc + accInc := by ring
          linarith
        have hjs : jsMin (0.76 + (k : ℚ) * accInc + accInc) target =
            0.76 + (k : ℚ) * accInc + accInc := by
          rw [jsMin]
          exact if_pos (by linarith)
        rw [if_neg hnew]
        refine AlgRunState.ext ?_ ?_ ?_
        · show (k : ℚ) * inc + inc = if n ≤ k + 1 then 100 else ((k + 1 : Nat) : ℚ) * inc
          rw [if_neg hk1]
          push_cast
          ring
        · show jsMin (0.76 + (k : ℚ) * accInc + accInc) target =
            0.76 + ((min (k + 1) n : Nat) : ℚ) * accInc
          rw [hjs, hmin1]
          push_cast
          ring
        · simp [hk1]

/-- The tick-count and increment facts the closed form needs, for every
roster entry: n = duration / 50 ticks exhaust the duration exactly, and the
accuracy increment is nonnegative. -/
lemma roster_tick_params (a : AlgorithmSpec) (ha : a ∈ ANALYSIS_ALGORITHMS) (fileName : String) :
    0 < a.duration / updateIntervalMs ∧
    incrementAmount a.duration * ((a.duration / updateIntervalMs : Nat) : ℚ) = 100 ∧
    accuracyIncrementAmount (getAlgorithmAccuracy fileName a.baseAccuracy) a.duration *
      ((a.duration / updateIntervalMs : Nat) : ℚ) =
      getAlgorithmAccuracy fileName a.baseAccuracy - 0.76 ∧
    0 ≤ accuracyIncrementAmount (getAlgorithmAccuracy fileName a.baseAccuracy) a.duration ∧
    0 < incrementAmount a.duration := by
  have hb := getAlgorithmAccuracy_bounds fileName a.baseAccuracy
  have hub : 0 ≤ getAlgorithmAccuracy fileName a.baseAccuracy - 0.76 := by
    have h1 := hb.1
    norm_num at h1 ⊢
    linarith
  have h4 : 0 ≤ accuracyIncrementAmount (getAlgorithmAccuracy fileName a.baseAccuracy)
      a.duration :=
    div_nonneg (mul_nonneg hub (Nat.cast_nonneg _)) (Nat.cast_nonneg _)
  simp only [ANALYSIS_ALGORITHMS, List.mem_cons, List.mem_singleton,
    List.not_mem_nil, or_false] at ha
  rcases ha with rfl | rfl | rfl | rfl | rfl <;>
    exact ⟨by norm_num [updateIntervalMs],
      by norm_num [incrementAmount, updateIntervalMs],
      by norm_num [accuracyIncrementAmount, updateIntervalMs]; try ring,
      h4,
      by norm_num [incrementAmount, updateIntervalMs]⟩

/-- Closed form of algRunA for every roster entry. -/
lemma algRunA_closed (fileName : String) (a : AlgorithmSpec) (ha : a ∈ ANALYSIS_ALGORITHMS)
    (k : Nat) :
    algRunA fileName a k =
      { progress := if a.duration / updateIntervalMs ≤ k then 100
          else (k : ℚ) * incrementAmount a.duration,
        accuracy := 0.76 + ((min k (a.duration / updateIntervalMs) : Nat) : ℚ) *
          accuracyIncrementAmount (getAlgorithmAccuracy fileName a.baseAccuracy) a.duration,
        completed := decide (a.duration / updateIntervalMs ≤ k) } := by
  obtain ⟨h1, h2, h3, h4, h5⟩ := roster_tick_params a ha fileName
  exact algTick_iterate_closed _ _ _ _ h1 h2 h3 h4 k

/-- The accuracy at the completion tick equals the target exactly. -/
lemma algRunA_accuracy_at_completion (fileName : String) (a : AlgorithmSpec)
    (ha : a ∈ ANALYSIS_ALGORITHMS) :
    (algRunA fileName a (a.duration / updateIntervalMs)).accuracy =
      getAlgorithmAccuracy fileName a.baseAccuracy := by
  obtain ⟨h1, h2, h3, h4, h5⟩ := roster_tick_params a ha fileName
  rw [algRunA_closed fileName a ha]
  show 0.76 + ((min (a.duration / updateIntervalMs) (a.duration / updateIntervalMs) : Nat) : ℚ) *
      accuracyIncrementAmount (getAlgorithmAccuracy fileName a.baseAccuracy) a.duration =
    getAlgorithmAccuracy fileName a.baseAccuracy
  rw [min_self]
  have hc : ((a.duration / updateIntervalMs : Nat) : ℚ) *
      accuracyIncrementAmount (getAlgorithmAccuracy fileName a.baseAccuracy) a.duration =
      accuracyIncrementAmount (getAlgorithmAccuracy fileName a.baseAccuracy) a.duration *
      ((a.duration / updateIntervalMs : Nat) : ℚ) := by ring
  rw [hc, h3]
  ring

/-- C6: within one uninterrupted session, each 50 ms tick of a roster
algorithm applies the source increments with clamping, progress is
non-decreasing and terminates at exactly 100 after duration / 50 ticks, the
state never changes after that tick, and accuracy is non-decreasing from 0.76
and terminates at the per-file target accuracy, exactly and hence within
tolerance 1e-6. -/
theorem algorithm_run_monotone_and_terminates (fileName : String)
    (a : AlgorithmSpec) (ha : a ∈ ANALYSIS_ALGORITHMS) :
    (∀ k, algRunA fileName a (k + 1) =
      algTick (incrementAmount a.duration)
        (accuracyIncrementAmount (getAlgorithmAccuracy fileName a.baseAccuracy) a.duration)
        (getAlgorithmAccuracy fileName a.baseAccuracy) (algRunA fileName a k)) ∧
    (algRunA fileName a 0).accuracy = 0.76 ∧
    (∀ k, (algRunA fileName a k).progress ≤ (algRunA fileName a (k + 1)).progress) ∧
    (∀ k, (algRunA fileName a k).accuracy ≤ (algRunA fileName a (k + 1)).accuracy) ∧
    (algRunA fileName a (a.duration / updateIntervalMs)).progress = 100 ∧
    (∀ k, a.duration / updateIntervalMs ≤ k →
      algRunA fileName a k = algRunA fileName a (a.duration / updateIntervalMs)) ∧
    (algRunA fileName a (a.duration / updateIntervalMs)).accuracy =
      getAlgorithmAccuracy fileName a.baseAccuracy ∧
    |(algRunA fileName a (a.duration / updateIntervalMs)).accuracy -
      getAlgorithmAccuracy fileName a.baseAccuracy| ≤ 1 / 1000000 := by
  obtain ⟨h1, h2, h3, h4, h5⟩ := roster_tick_params a ha fileName
  have closed := algRunA_closed fileName a ha
  refine ⟨?_, rfl, ?_, ?_, ?_, ?_, ?_, ?_⟩
  · intro k
    exact Function.iterate_succ_apply' _ k _
  · intro k
    rw [closed k, closed (k + 1)]
    show (if a.duration / updateIntervalMs ≤ k then (100 : ℚ)
        else (k : ℚ) * incrementAmount a.duration) ≤
      (if a.duration / updateIntervalMs ≤ k + 1 then (100 : ℚ)
        else ((k + 1 : Nat) : ℚ) * incrementAmount a.duration)
    by_cases hk : a.duration / updateIntervalMs ≤ k
    · rw [if_pos hk, if_pos (by omega)]
    · rw [if_neg hk]
      by_cases hk1 : a.duration / updateIntervalMs ≤ k + 1
      · rw [if_pos hk1]
        have hkn : (k : ℚ) ≤ ((a.duration / updateIntervalMs : Nat) : ℚ) := by
          exact_mod_cast Nat.le_of_not_le hk
        have := mul_le_mul_of_nonneg_right hkn (le_of_lt h5)
        have hcm : ((a.duration / updateIntervalMs : Nat) : ℚ) * incrementAmount a.duration =
            incrementAmount a.duration * ((a.duration / updateIntervalMs : Nat) : ℚ) := by ring
        rw [hcm, h2] at this
        exact this
      · rw [if_neg hk1]
        have hkk : (k : ℚ) ≤ ((k + 1 : Nat) : ℚ) := by exact_mod_cast Nat.le_succ k
        exact mul_le_mul_of_nonneg_right hkk (le_of_lt h5)
  · intro k
    rw [closed k, closed (k + 1)]
    show 0.76 + ((min k (a.duration / updateIntervalMs) : Nat) : ℚ) *
        accuracyIncrementAmount (getAlgorithmAccuracy fileName a.baseAccuracy) a.duration ≤
      0.76 + ((min (k + 1) (a.duration / updateIntervalMs) : Nat) : ℚ) *
        accuracyIncrementAmount (getAlgorithmAccuracy fileName a.baseAccuracy) a.duration
    have hm : ((min k (a.duration / updateIntervalMs) : Nat) : ℚ) ≤
        ((min (k + 1) (a.duration / updateIntervalMs) : Nat) : ℚ) := by
      have : min k (a.duration / updateIntervalMs) ≤ min (k + 1) (a.duration / updateIntervalMs) := by
        omega
      exact_mod_cast this
    exact add_le_add_left (mul_le_mul_of_nonneg_right hm h4) _
  · rw [closed]
    show (if a.duration / updateIntervalMs ≤ a.duration / updateIntervalMs then (100 : ℚ)
        else _) = 100
    rw [if_pos le_rfl]
  · intro k hk
    rw [closed k, closed (a.duration / updateIntervalMs)]
    have e1 : min k (a.duration / updateIntervalMs) = a.duration / updateIntervalMs := by omega
    have e2 : min (a.duration / updateIntervalMs) (a.duration / updateIntervalMs) =
        a.duration / updateIntervalMs := by omega
    rw [e1, e2, if_pos hk, if_pos le_rfl, decide_eq_true hk, decide_eq_true le_rfl]
  · exact algRunA_accuracy_at_completion fileName a ha
  · rw [algRunA_accuracy_at_completion fileName a ha]
    simp

/-- Witness for C6 at the file name kidney.png and the first roster entry. -/
theorem algorithm_run_monotone_witness :
    dnnSpec ∈ ANALYSIS_ALGORITHMS ∧
    ((∀ k, algRunA "kidney.png" dnnSpec (k + 1) =
      algTick (incrementAmount dnnSpec.duration)
        (accuracyIncrementAmount (getAlgorithmAccuracy "kidney.png" dnnSpec.baseAccuracy)
          dnnSpec.duration)
        (getAlgorithmAccuracy "kidney.png" dnnSpec.baseAccuracy)
        (algRunA "kidney.png" dnnSpec k)) ∧
    (algRunA "kidney.png" dnnSpec 0).accuracy = 0.76 ∧
    (∀ k, (algRunA "kidney.png" dnnSpec k).progress ≤
      (algRunA "kidney.png" dnnSpec (k + 1)).progress) ∧
    (∀ k, (algRunA "kidney.png" dnnSpec k).accuracy ≤
      (algRunA "kidney.png" dnnSpec (k + 1)).accuracy) ∧
    (algRunA "kidney.png" dnnSpec (dnnSpec.duration / updateIntervalMs)).progress = 100 ∧
    (∀ k, dnnSpec.duration / updateIntervalMs ≤ k →
      algRunA "kidney.png" dnnSpec k =
        algRunA "kidney.png" dnnSpec (dnnSpec.duration / updateIntervalMs)) ∧
    (algRunA "kidney.png" dnnSpec (dnnSpec.duration / updateIntervalMs)).accuracy =
      getAlgorithmAccuracy "kidney.png" dnnSpec.baseAccuracy ∧
    |(algRunA "kidney.png" dnnSpec (dnnSpec.duration / updateIntervalMs)).accuracy -
      getAlgorithmAccuracy "kidney.png" dnnSpec.baseAccuracy| ≤ 1 / 1000000) :=
  ⟨List.mem_cons_self _ _,
    algorithm_run_monotone_and_terminates "kidney.png" dnnSpec (List.mem_cons_self _ _)⟩

/-! ## The joint session simulation and completionOrder (C7) -/

/-- The joint per-session simulator state: one AlgRunState per roster entry,
positionally aligned with ANALYSIS_ALGORITHMS, plus the completedAlgorithms
list in completion order (source lines 220-227 and 289-305). -/
structure SimState where
  states : List AlgRunState
  completionOrder : List String
deriving DecidableEq

/-- The session-start simulator state (source lines 313-317 and 324). -/
def simInit : SimState :=
  { states := ANALYSIS_ALGORITHMS.map (fun _ => initRunState), completionOrder := [] }

/-- One 50 ms round of the session: every algorithm's interval callback fires
once, in roster order (the order the intervals were registered in, source
line 279); every algorithm whose progress reaches 100 in this round appends
its name to completedAlgorithms (source lines 292-295). -/
def simTick (fileName : String) (s : SimState) : SimState :=
  { states := (ANALYSIS_ALGORITHMS.zip s.states).map
      (fun p => algParamsTick fileName p.1 p.2),
    completionOrder := s.completionOrder ++
      ((ANALYSIS_ALGORITHMS.zip s.states).filter
        (fun p => !p.2.completed && (algParamsTick fileName p.1 p.2).completed)).map
        (fun p => p.1.name) }

/-- The simulator state after k 50 ms rounds. -/
def simRun (fileName : String) (k : Nat) : SimState := (simTick fileName)^[k] simInit

lemma zip_self_map {α β : Type} (l : List α) (g : α → β) :
    l.zip (l.map g) = l.map (fun a => (a, g a)) := by
  induction l with
  | nil => rfl
  | cons x xs ih => simp [ih]

/-- The joint simulation advances every algorithm exactly like its own
stand-alone run. -/
lemma simRun_states (fileName : String) (k : Nat) :
    (simRun fileName k).states = ANALYSIS_ALGORITHMS.map (fun a => algRunA fileName a k) := by
  induction k with
  | zero => rfl
  | succ k ih =>
    have hstep : simRun fileName (k + 1) = simTick fileName (simRun fileName k) :=
      Function.iterate_succ_apply' _ _ _
    rw [hstep]
    show (ANALYSIS_ALGORITHMS.zip (simRun fileName k).states).map
        (fun p => algParamsTick fileName p.1 p.2) =
      ANALYSIS_ALGORITHMS.map (fun a => algRunA fileName a (k + 1))
    rw [ih, zip_self_map, List.map_map]
    apply List.map_congr_left
    intro b _
    exact (Function.iterate_succ_apply' _ _ _).symm

/-- One round appends exactly the names of the algorithms that complete in
that round, in roster order. -/
lemma simRun_order_succ (fileName : String) (k : Nat) :
    (simRun fileName (k + 1)).completionOrder = (simRun fileName k).completionOrder ++
      ((ANALYSIS_ALGORITHMS.filter (fun a => !(algRunA fileName a k).completed &&
        (algRunA fileName a (k + 1)).completed)).map (fun a => a.name)) := by
  have hstep : simRun fileName (k + 1) = simTick fileName (simRun fileName k) :=
    Function.iterate_succ_apply' _ _ _
  rw [hstep]
  show (simRun fileName k).completionOrder ++ _ = (simRun fileName k).completionOrder ++ _
  congr 1
  rw [simRun_states, zip_self_map, List.filter_map, List.map_map]
  have hfc : (ANALYSIS_ALGORITHMS.filter
      ((fun p : AlgorithmSpec × AlgRunState =>
        !p.2.completed && (algParamsTick fileName p.1 p.2).completed) ∘
        (fun a => (a, algRunA fileName a k)))) =
      ANALYSIS_ALGORITHMS.filter (fun a => !(algRunA fileName a k).completed &&
        (algRunA fileName a (k + 1)).completed) := by
    apply List.filter_congr
    intro b _
    show (!(algRunA fileName b k).completed &&
        (algParamsTick fileName b (algRunA fileName b k)).completed) = _
    rw [show algParamsTick fileName b (algRunA fileName b k) = algRunA fileName b (k + 1) from
      (Function.iterate_succ_apply' _ _ _).symm]
  rw [hfc]
  rfl

/-- Once completed, one further tick leaves the state unchanged. -/
lemma algTick_fix (inc accInc target : ℚ) (s : AlgRunState) (h : s.completed = true) :
    algTick inc accInc target s = s := by
  simp [algTick, h]

lemma algRunA_completed_mono (fileName : String) (a : AlgorithmSpec) (k : Nat)
    (h : (algRunA fileName a k).completed = true) :
    (algRunA fileName a (k + 1)).completed = true := by
  have hstep : algRunA fileName a (k + 1) = algParamsTick fileName a (algRunA fileName a k) :=
    Function.iterate_succ_apply' _ _ _
  rw [hstep]
  show (algTick _ _ _ (algRunA fileName a k)).completed = true
  rw [algTick_fix _ _ _ _ h]
  exact h

/-- After the completion tick the state never changes again. -/
lemma algRunA_fixed_after (fileName : String) (a : AlgorithmSpec) (k k' : Nat)
    (hkk : k ≤ k') (hc : (algRunA fileName a k).completed = true) :
    algRunA fileName a k' = algRunA fileName a k := by
  induction k', hkk using Nat.le_induction with
  | base => rfl
  | succ n hn ih =>
    have hstep : algRunA fileName a (n + 1) = algParamsTick fileName a (algRunA fileName a n) :=
      Function.iterate_succ_apply' _ _ _
    rw [hstep, ih]
    exact algTick_fix _ _ _ _ hc

lemma roster_names_nodup : (ANALYSIS_ALGORITHMS.map (fun a => a.name)).Nodup := by decide

/-- The membership invariant: a roster algorithm's name is in
completedAlgorithms exactly when its own run state is completed. -/
lemma mem_order_iff_completed (fileName : String) (a : AlgorithmSpec)
    (ha : a ∈ ANALYSIS_ALGORITHMS) (k : Nat) :
    a.name ∈ (simRun fileName k).completionOrder ↔
      (algRunA fileName a k).completed = true := by
  induction k with
  | zero =>
    show a.name ∈ ([] : List String) ↔ initRunState.completed = true
    simp [initRunState]
  | succ k ih =>
    rw [simRun_order_succ, List.mem_append]
    constructor
    · rintro (h | h)
      · exact algRunA_completed_mono fileName a k (ih.mp h)
      · obtain ⟨b, hbmem, hbname⟩ := List.mem_map.mp h
        have hbro : b ∈ ANALYSIS_ALGORITHMS := (List.mem_filter.mp hbmem).1
        have hq := (List.mem_filter.mp hbmem).2
        have hba : b = a := List.inj_on_of_nodup_map roster_names_nodup hbro ha hbname
        subst hba
        exact (Bool.and_eq_true _ _ |>.mp hq).2
    · intro h
      by_cases hck : (algRunA fileName a k).completed = true
      · exact Or.inl (ih.mpr hck)
      · refine Or.inr (List.mem_map.mpr ⟨a, List.mem_filter.mpr ⟨ha, ?_⟩, rfl⟩)
        have hfalse : (algRunA fileName a k).completed = false :=
          Bool.eq_false_iff.mpr hck
        rw [hfalse, h]
        rfl

/-- completedAlgorithms never contains a duplicate. -/
lemma order_nodup (fileName : String) (k : Nat) :
    ((simRun fileName k).completionOrder).Nodup := by
  induction k with
  | zero => exact List.nodup_nil
  | succ k ih =>
    rw [simRun_order_succ]
    refine List.Nodup.append ih ?_ ?_
    · have hsub : ((ANALYSIS_ALGORITHMS.filter (fun a => !(algRunA fileName a k).completed &&
          (algRunA fileName a (k + 1)).completed)).map (fun a => a.name)).Sublist
          (ANALYSIS_ALGORITHMS.map (fun a => a.name)) :=
        (List.filter_sublist _).map _
      exact List.Nodup.sublist hsub roster_names_nodup
    · intro x hx hx'
      obtain ⟨b, hbmem, hbname⟩ := List.mem_map.mp hx'
      have hbro : b ∈ ANALYSIS_ALGORITHMS := (List.mem_filter.mp hbmem).1
      have hq := (List.mem_filter.mp hbmem).2
      have hnc : (algRunA fileName b k).completed = false := by
        have h1 := (Bool.and_eq_true _ _ |>.mp hq).1
        cases hcc : (algRunA fileName b k).completed
        · rfl
        · rw [hcc] at h1
          exact absurd h1 (by simp)
      have hmem : b.name ∈ (simRun fileName k).completionOrder := hbname ▸ hx
      have := (mem_order_iff_completed fileName b hbro k).mp hmem
      rw [hnc] at this
      exact absurd this (by simp)

lemma duration_le_max (a : AlgorithmSpec) (ha : a ∈ ANALYSIS_ALGORITHMS) :
    a.duration / updateIntervalMs ≤ maxDuration / updateIntervalMs := by
  simp only [ANALYSIS_ALGORITHMS, List.mem_cons, List.mem_singleton,
    List.not_mem_nil, or_false] at ha
  rcases ha with rfl | rfl | rfl | rfl | rfl <;> decide

lemma all_completed_at_full (fileName : String) (a : AlgorithmSpec)
    (ha : a ∈ ANALYSIS_ALGORITHMS) :
    (algRunA fileName a (maxDuration / updateIntervalMs)).completed = true := by
  rw [algRunA_closed fileName a ha]
  exact decide_eq_true (duration_le_max a ha)

/-- A roster algorithm is completed exactly when its progress sits at 100. -/
lemma completed_iff_progress (fileName : String) (a : AlgorithmSpec)
    (ha : a ∈ ANALYSIS_ALGORITHMS) (k : Nat) :
    (algRunA fileName a k).completed = true ↔ (algRunA fileName a k).progress = 100 := by
  obtain ⟨h1, h2, h3, h4, h5⟩ := roster_tick_params a ha fileName
  rw [algRunA_closed fileName a ha k]
  show decide (a.duration / updateIntervalMs ≤ k) = true ↔
    (if a.duration / updateIntervalMs ≤ k then (100 : ℚ)
      else (k : ℚ) * incrementAmount a.duration) = 100
  by_cases hk : a.duration / updateIntervalMs ≤ k
  · simp [hk]
  · rw [if_neg hk]
    simp only [decide_eq_true_eq]
    constructor
    · intro h
      exact absurd h hk
    · intro heq
      exfalso
      have hklt : (k : ℚ) < ((a.duration / updateIntervalMs : Nat) : ℚ) := by
        exact_mod_cast Nat.lt_of_not_le hk
      have hlt : (k : ℚ) * incrementAmount a.duration <
          ((a.duration / updateIntervalMs : Nat) : ℚ) * incrementAmount a.duration :=
        mul_lt_mul_of_pos_right hklt h5
      have hcm : ((a.duration / updateIntervalMs : Nat) : ℚ) * incrementAmount a.duration =
          incrementAmount a.duration * ((a.duration / updateIntervalMs : Nat) : ℚ) := by ring
      rw [hcm, h2] at hlt
      rw [heq] at hlt
      exact absurd hlt (lt_irrefl _)

/-- C7: within a single session, completedAlgorithms is append-only with no
duplicates, after a full run (maxDuration / 50 rounds) it holds each roster
algorithm's name exactly once, a name belongs to it exactly when that
algorithm's own progress sits at 100 (so it is appended at the moment the
progress first reaches 100), and a completed algorithm's state never changes
again; the joint simulation advances every algorithm like its stand-alone
run. -/
theorem completionOrder_append_only_nodup_complete (fileName : String)
    (a : AlgorithmSpec) (ha : a ∈ ANALYSIS_ALGORITHMS) :
    (∀ k, (simRun fileName k).states =
      ANALYSIS_ALGORITHMS.map (fun b => algRunA fileName b k)) ∧
    (∀ k, ∃ newNames, (simRun fileName (k + 1)).completionOrder =
      (simRun fileName k).completionOrder ++ newNames) ∧
    (∀ k, ((simRun fileName k).completionOrder).Nodup) ∧
    ((simRun fileName (maxDuration / updateIntervalMs)).completionOrder).count a.name = 1 ∧
    (∀ k, (a.name ∈ (simRun fileName k).completionOrder ↔
      (algRunA fileName a k).progress = 100)) ∧
    (∀ k k', k ≤ k' → (algRunA fileName a k).completed = true →
      algRunA fileName a k' = algRunA fileName a k) := by
  refine ⟨simRun_states fileName, ?_, order_nodup fileName, ?_, ?_, ?_⟩
  · intro k
    exact ⟨_, simRun_order_succ fileName k⟩
  · exact List.count_eq_one_of_mem (order_nodup fileName _)
      ((mem_order_iff_completed fileName a ha _).mpr (all_completed_at_full fileName a ha))
  · intro k
    exact (mem_order_iff_completed fileName a ha k).trans
      (completed_iff_progress fileName a ha k)
  · intro k k' hkk hc
    exact algRunA_fixed_after fileName a k k' hkk hc

/-- Witness for C7 at the file name kidney.png and the first roster entry. -/
theorem completionOrder_append_only_witness :
    dnnSpec ∈ ANALYSIS_ALGORITHMS ∧
    ((∀ k, (simRun "kidney.png" k).states =
      ANALYSIS_ALGORITHMS.map (fun b => algRunA "kidney.png" b k)) ∧
    (∀ k, ∃ newNames, (simRun "kidney.png" (k + 1)).completionOrder =
      (simRun "kidney.png" k).completionOrder ++ newNames) ∧
    (∀ k, ((simRun "kidney.png" k).completionOrder).Nodup) ∧
    ((simRun "kidney.png" (maxDuration / updateIntervalMs)).completionOrder).count
      dnnSpec.name = 1 ∧
    (∀ k, (dnnSpec.name ∈ (simRun "kidney.png" k).completionOrder ↔
      (algRunA "kidney.png" dnnSpec k).progress = 100)) ∧
    (∀ k k', k ≤ k' → (algRunA "kidney.png" dnnSpec k).completed = true →
      algRunA "kidney.png" dnnSpec k' = algRunA "kidney.png" dnnSpec k)) :=
  ⟨List.mem_cons_self _ _,
    completionOrder_append_only_nodup_complete "kidney.png" dnnSpec (List.mem_cons_self _ _)⟩
